import Mathlib

/-!
Verification of the impl-trait-for-tuples code generator.

This file gives a shallow embedding of the semi-automatic tuple trait
implementation engine (src/semi_automatic.rs, src/utils.rs, src/lib.rs) and
proves properties of it. Identifiers are strings, the relevant fragment of
the syn abstract syntax tree is embedded as inductive types, and the fold
based tree rewriter is embedded as structurally recursive functions.
-/

namespace ImplTraitForTuples

/-- Identifiers of the host language are modelled as strings. -/
abbrev Ident := String

/-- One segment of a syn path: its identifier and whether the segment carries
path arguments (generic arguments). Mirrors syn::PathSegment as far as the
code under verification inspects it. -/
structure PathSegment where
  ident : Ident
  hasArguments : Bool
deriving DecidableEq, Repr

/-- A syn path: optional leading double colon and a list of segments. -/
structure Path where
  leadingColon : Bool
  segments : List PathSegment
deriving DecidableEq, Repr

/-- Mirrors syn Path::get_ident: the path is a single plain identifier when
there is no leading colon, exactly one segment, and that segment has no
arguments. -/
def Path.getIdent (p : Path) : Option Ident :=
  if p.leadingColon = false then
    match p.segments with
    | [seg] => if seg.hasArguments = false then some seg.ident else none
    | _ => none
  else none

/-- Mirrors syn Path::is_ident. -/
def Path.isIdent (p : Path) (s : Ident) : Bool :=
  decide (p.getIdent = some s)

/-- The path consisting of the single plain identifier i. -/
def Path.ofIdent (i : Ident) : Path :=
  ⟨false, [⟨i, false⟩]⟩

/-
The mutually inductive fragment of the syn abstract syntax tree used by the
rewriter. The fragment keeps exactly the shapes the code in
src/semi_automatic.rs dispatches on:
  - Expr: path expressions, method calls (receiver, method name, arguments),
    receiver field accesses self.i (the result of parse_quote!(self.#index)),
    macro invocations in expression position, and verbatim token streams
    (Expr::Verbatim).
  - Stmt: an expression statement without (Stmt::Expr) or with (Stmt::Semi) a
    trailing semicolon, as produced by Block::parse_within.
  - MacroCall: a macro invocation, with its path and its token body. The body
    is carried in already-parsed form: parseOk when the host parser for the
    for_tuples grammar (the Parse impl for ForTuplesMacro, semi_automatic.rs
    lines 145-172) would succeed on the tokens, and malformed with the parse
    error message when it would fail. Macro bodies of other macros are never
    parsed by the code under verification, so for them the field is simply
    payload data that is carried around unchanged.
  - ForTuplesForm: the three placements of the for_tuples grammar
    (associated type item, parenthesized statement, bare statement).
  - TupleRepetition: the pound-parenthesized repetition with its statements
    and the presence of the optional comma join token.
  - Token: output token streams. A rewritten statement is rendered as one
    stmtTok token; the remaining constructors are the literal tokens emitted
    by ForTuplesForm::expand (type keyword, identifier, equals sign,
    parenthesized group, semicolon) and the comma join token.
-/
mutual

inductive Expr where
  | path : Path → Expr
  | methodCall : Expr → Ident → List Expr → Expr
  | selfField : Nat → Expr
  | mac : MacroCall → Expr
  | verbatim : List Token → Expr

inductive Stmt where
  | expr : Expr → Stmt
  | semi : Expr → Stmt

inductive MacroCall where
  | mk : Path → MacroBody → MacroCall

inductive MacroBody where
  | parseOk : ForTuplesForm → MacroBody
  | malformed : String → MacroBody

inductive ForTuplesForm where
  | item : Ident → TupleRepetition → ForTuplesForm
  | stmtParenthesized : TupleRepetition → ForTuplesForm
  | stmtRep : TupleRepetition → ForTuplesForm

inductive TupleRepetition where
  | mk : List Stmt → Bool → TupleRepetition

inductive Token where
  | stmtTok : Stmt → Token
  | comma : Token
  | typeKw : Token
  | identTok : Ident → Token
  | eqTok : Token
  | semiTok : Token
  | group : List Token → Token

end

/-- Path of a macro invocation. -/
def MacroCall.path : MacroCall → Path
  | .mk p _ => p

/-- Parsed body of a macro invocation. -/
def MacroCall.body : MacroCall → MacroBody
  | .mk _ b => b

/-- Statements of a repetition (field stmts in semi_automatic.rs line 25). -/
def TupleRepetition.stmts : TupleRepetition → List Stmt
  | .mk s _ => s

/-- Presence of the optional comma join token (field comma_token in
semi_automatic.rs line 26). -/
def TupleRepetition.comma_token : TupleRepetition → Bool
  | .mk _ c => c

/-- Returns true when the expression is a path expression whose path is the
single plain identifier s. This is the test performed by the guard
Expr::Path(ref path) if path.path.is_ident(self.search) in
semi_automatic.rs line 112. -/
def Expr.isPlaceholderPath (e : Expr) (s : Ident) : Bool :=
  match e with
  | Expr.path p => p.isIdent s
  | _ => false

/-- State of the placeholder replacement fold, mirroring the struct
ReplaceTuplePlaceholder in semi_automatic.rs lines 75-80: the identifier
searched for, the identifier substituted for it, whether the enclosing
method has a self parameter, and the tuple position index. -/
structure ReplaceTuplePlaceholder where
  search : Ident
  replace : Ident
  use_self : Bool
  index : Nat

/-- Mirrors the fold_ident override (semi_automatic.rs lines 101-107):
an identifier equal to the searched placeholder is replaced, any other
identifier is kept. -/
def ReplaceTuplePlaceholder.foldIdent (f : ReplaceTuplePlaceholder)
    (ident : Ident) : Ident :=
  if ident = f.search then f.replace else ident

/-- The default syn fold on a path applies fold_ident to the identifier of
every segment. ReplaceTuplePlaceholder does not override path folding, so
this is what runs on paths during its traversal. Segment arguments are not
modelled beyond their presence flag, which the fold keeps. -/
def ReplaceTuplePlaceholder.foldPath (f : ReplaceTuplePlaceholder)
    (p : Path) : Path :=
  { p with segments := p.segments.map (fun seg => { seg with ident := f.foldIdent seg.ident }) }

mutual

/-- Mirrors the fold_expr override of ReplaceTuplePlaceholder
(semi_automatic.rs lines 109-122) together with the default syn fold
recursion on the modelled expression fragment:
  - a method call whose receiver is a path expression equal to the searched
    placeholder is, when use_self is set, rewritten so that its receiver
    becomes the field access self.index; the method name and the arguments
    are returned as they are (the code returns call.clone() after only
    swapping the receiver);
  - every other method call is folded by the default fold for method calls,
    which folds the receiver and the arguments recursively and applies
    fold_ident to the method name;
  - every other expression is folded by the default fold: path expressions
    have fold_ident applied to each segment, a macro invocation has its path
    folded while its token body is left untouched (syn folds do not descend
    into token streams), field accesses self.i and verbatim token streams
    have no identifier positions that the default fold visits. -/
def ReplaceTuplePlaceholder.foldExpr (f : ReplaceTuplePlaceholder) :
    Expr → Expr
  | Expr.methodCall recv meth args =>
    if f.use_self && recv.isPlaceholderPath f.search then
      Expr.methodCall (Expr.selfField f.index) meth args
    else
      Expr.methodCall (f.foldExpr recv) (f.foldIdent meth)
        (ReplaceTuplePlaceholder.foldExprList f args)
  | Expr.path p => Expr.path (f.foldPath p)
  | Expr.selfField i => Expr.selfField i
  | Expr.mac m => Expr.mac (MacroCall.mk (f.foldPath m.path) m.body)
  | Expr.verbatim ts => Expr.verbatim ts

/-- Folds each expression of a list, as the default syn fold does with the
punctuated argument list of a method call. -/
def ReplaceTuplePlaceholder.foldExprList (f : ReplaceTuplePlaceholder) :
    List Expr → List Expr
  | [] => []
  | e :: es => f.foldExpr e :: ReplaceTuplePlaceholder.foldExprList f es

end

/-- The default syn fold on a statement folds the contained expression;
ReplaceTuplePlaceholder overrides neither statement case. -/
def ReplaceTuplePlaceholder.foldStmt (f : ReplaceTuplePlaceholder) :
    Stmt → Stmt
  | Stmt.expr e => Stmt.expr (f.foldExpr e)
  | Stmt.semi e => Stmt.semi (f.foldExpr e)

/-- Mirrors ReplaceTuplePlaceholder::replace_ident_in_stmt
(semi_automatic.rs lines 83-97): build the folder state and fold the
statement with it. -/
def ReplaceTuplePlaceholder.replace_ident_in_stmt (search replace : Ident)
    (use_self : Bool) (index : Nat) (stmt : Stmt) : Stmt :=
  ReplaceTuplePlaceholder.foldStmt ⟨search, replace, use_self, index⟩ stmt

/-- One expansion copy of a repetition: every statement of the marker body
with the placeholder replacement for position i and tuple identifier t
applied, each rendered into the output token stream. This is the body of
the loop in TupleRepetition::expand (semi_automatic.rs lines 53-63). -/
def TupleRepetition.copyAt (rep : TupleRepetition) (ph : Ident)
    (use_self : Bool) (i : Nat) (t : Ident) : List Token :=
  rep.stmts.map (fun s =>
    Token.stmtTok (ReplaceTuplePlaceholder.replace_ident_in_stmt ph t use_self i s))

/-- The loop of TupleRepetition::expand (semi_automatic.rs lines 51-70)
starting at position i: for each remaining tuple identifier, emit the
expansion copy for its position, then the comma join token when the marker
has one, then continue with the next position. -/
def TupleRepetition.expandFrom (rep : TupleRepetition) (ph : Ident)
    (use_self : Bool) : Nat → List Ident → List Token
  | _, [] => []
  | i, t :: ts =>
    rep.copyAt ph use_self i t
      ++ (if rep.comma_token then [Token.comma] else [])
      ++ rep.expandFrom ph use_self (i + 1) ts

/-- Mirrors TupleRepetition::expand (semi_automatic.rs lines 45-71):
iterate over the tuple identifiers with their positions, starting at
position zero, and collect the generated tokens. -/
def TupleRepetition.expand (rep : TupleRepetition)
    (tuple_placeholder_ident : Ident) (tuples : List Ident)
    (use_self : Bool) : List Token :=
  rep.expandFrom tuple_placeholder_ident use_self 0 tuples

/-- Mirrors ForTuplesMacro::expand (semi_automatic.rs lines 195-235) for the
three placements: the item form re-emits the type keyword, the associated
type name, the equals sign, the expanded repetition inside a parenthesized
group and the trailing semicolon; the parenthesized statement form emits
the expanded repetition inside a parenthesized group; the bare statement
form emits the expanded repetition alone. -/
def ForTuplesForm.expand : ForTuplesForm → Ident → List Ident → Bool → List Token
  | .item n rep, ph, tuples, u =>
    [Token.typeKw, Token.identTok n, Token.eqTok,
      Token.group (rep.expand ph tuples u), Token.semiTok]
  | .stmtParenthesized rep, ph, tuples, u =>
    [Token.group (rep.expand ph tuples u)]
  | .stmtRep rep, ph, tuples, u => rep.expand ph tuples u

/-- A syn Error value. Syn represents an error as a nonempty list of
individual messages; Error::new produces a one element list and
Error::combine appends the messages of the second error. The first element
of the list is the primary reported diagnostic, the rest are attached to it
as additional diagnostics. Spans are not modelled. -/
abbrev Error := List String

/-- Mirrors syn Error::new. -/
def Error.new (msg : String) : Error := [msg]

/-- Mirrors syn Error::combine: the messages of the second error are
appended to those of the first. -/
def Error.combine (e n : Error) : Error := e ++ n

/-- Mirrors ForTuplesMacro::try_from (semi_automatic.rs lines 179-186):
when the macro path is not the plain identifier for_tuples the result is
Ok(None) and the token body is never parsed; otherwise the body is parsed
with the for_tuples grammar, giving either the parsed form or the parse
error. -/
def ForTuplesForm.tryFrom (m : MacroCall) :
    Except Error (Option ForTuplesForm) :=
  if m.path.isIdent "for_tuples" = false then Except.ok none
  else
    match m.body with
    | MacroBody.parseOk ft => Except.ok (some ft)
    | MacroBody.malformed msg => Except.error (Error.new msg)

/-- A generic type parameter declaration: its identifier and, when declared
with an inline bound (parse_quote!(#tuple_element : #bounds) in
utils.rs line 25), that bound, given as the trait path. Only type
parameters are modelled, matching what Generics::type_params iterates
over. -/
structure TypeParam where
  ident : Ident
  bound : Option Path
deriving DecidableEq, Repr

/-- A where clause predicate of the shape identifier : trait path, as
produced by parse_quote!(#tuple_element : #bounds) in utils.rs line 21. -/
structure WherePredicate where
  ident : Ident
  bound : Path
deriving DecidableEq, Repr

/-- The generic parameter list and where clause of an item, mirroring
syn::Generics as far as the code reads and writes it. -/
structure Generics where
  params : List TypeParam
  wherePredicates : List WherePredicate
deriving DecidableEq, Repr

/-- Mirrors utils.rs add_tuple_element_generics (lines 8-28): when any
declared type parameter has the same identifier as any tuple element, one
where clause predicate with the bound is pushed per tuple element;
otherwise each tuple element is pushed as a new type parameter carrying the
bound. -/
def add_tuple_element_generics (tuple_elements : List Ident) (bounds : Path)
    (generics : Generics) : Generics :=
  if generics.params.any (fun t => tuple_elements.any (fun t2 => t2 == t.ident)) then
    { generics with
      wherePredicates := generics.wherePredicates
        ++ tuple_elements.map (fun te => ⟨te, bounds⟩) }
  else
    { generics with
      params := generics.params ++ tuple_elements.map (fun te => ⟨te, some bounds⟩) }

/-- The modelled fragment of a type: a path type, a macro invocation in type
position, the generated tuple type over a list of element identifiers
(parse_quote!( ( #( #tuples ),* ) ) in semi_automatic.rs line 283), and a
verbatim token stream (Type::Verbatim). -/
inductive Ty where
  | path : Path → Ty
  | mac : MacroCall → Ty
  | tuple : List Ident → Ty
  | verbatim : List Token → Ty

/-- One input of a function signature: the self receiver or a typed
argument with its pattern name and type. -/
inductive FnArg where
  | receiver : FnArg
  | typed : Ident → Ty → FnArg

/-- A method signature: name, inputs and optional return type. -/
structure Signature where
  ident : Ident
  inputs : List FnArg
  output : Option Ty

/-- A method inside an implementation block: its signature and the
statements of its body block. -/
structure ImplItemMethod where
  sig : Signature
  block : List Stmt

/-- An item of an implementation block: a method, a macro invocation at item
position, an associated type assignment, or a verbatim token stream
(ImplItem::Verbatim). -/
inductive ImplItem where
  | method : ImplItemMethod → ImplItem
  | macItem : MacroCall → ImplItem
  | typeItem : Ident → Ty → ImplItem
  | verbatim : List Token → ImplItem

/-- An implementation block, mirroring syn::ItemImpl as far as the code
reads and writes it: outer attributes (modelled as strings), generics, the
implemented trait path when the block is a trait implementation, the self
type and the items. -/
structure ItemImpl where
  attrs : List String
  generics : Generics
  trait_ : Option Path
  self_ty : Ty
  items : List ImplItem

/-- Mirrors the receiver test in
ToTupleImplementation::fold_impl_item_method (semi_automatic.rs lines
370-378): the method has a self parameter when its first input is a
receiver. -/
def ImplItemMethod.hasSelf (m : ImplItemMethod) : Bool :=
  match m.sig.inputs.head? with
  | some FnArg.receiver => true
  | _ => false

/-- Context of one tuple implementation generation pass: the user chosen
placeholder identifier and the tuple identifiers of the current arity
(fields tuple_placeholder_ident and tuples of ToTupleImplementation,
semi_automatic.rs lines 252-263). The error list of the struct is threaded
explicitly as the second component of each fold result below, and the
has_self_parameter flag is passed as an argument where it is read. -/
structure ToTupleImplementation where
  tuple_placeholder_ident : Ident
  tuples : List Ident

/-- Mirrors the fold_type override (semi_automatic.rs lines 351-367): a
for_tuples macro invocation in type position is expanded with use_self
false and replaced by a verbatim stream; another macro invocation is left
as it is (the default fold folds only its path, and this fold replaces no
identifiers); a body that fails to parse contributes its error and an empty
verbatim stream. Every other type is left unchanged by the default fold on
the modelled fragment, which contains no inner statement positions. -/
def ToTupleImplementation.foldType (c : ToTupleImplementation) :
    Ty → Ty × List Error
  | Ty.mac m =>
    match ForTuplesForm.tryFrom m with
    | Except.ok (some ft) =>
      (Ty.verbatim (ft.expand c.tuple_placeholder_ident c.tuples false), [])
    | Except.ok none => (Ty.mac m, [])
    | Except.error e => (Ty.verbatim [], [e])
  | t => (t, [])

/-- Mirrors the fold_stmt override (semi_automatic.rs lines 316-349). The
statement is split into its expression and the presence of a trailing
semicolon. A for_tuples macro invocation in expression position is expanded
with use_self equal to the current has_self_parameter flag and replaces the
whole statement with an expression statement holding the verbatim stream
(the expanded flag drops the trailing semicolon). Another macro invocation
is left as it is. A body that fails to parse contributes its error and
leaves an empty verbatim expression with the original semicolon shape.
Every other expression is folded by the default fold, which is the identity
on the modelled fragment since this fold overrides no expression or
identifier case reachable from it. -/
def ToTupleImplementation.foldStmt (c : ToTupleImplementation)
    (has_self_parameter : Bool) (stmt : Stmt) : Stmt × List Error :=
  let p : Expr × Bool :=
    match stmt with
    | Stmt.expr e => (e, false)
    | Stmt.semi e => (e, true)
  match p.1 with
  | Expr.mac m =>
    match ForTuplesForm.tryFrom m with
    | Except.ok (some ft) =>
      (Stmt.expr (Expr.verbatim
        (ft.expand c.tuple_placeholder_ident c.tuples has_self_parameter)), [])
    | Except.ok none =>
      ((if p.2 then Stmt.semi (Expr.mac m) else Stmt.expr (Expr.mac m)), [])
    | Except.error e =>
      ((if p.2 then Stmt.semi (Expr.verbatim []) else Stmt.expr (Expr.verbatim [])), [e])
  | e => ((if p.2 then Stmt.semi e else Stmt.expr e), [])

/-- Folds the statements of a block in order, concatenating their error
contributions, as the default fold_block does through the fold_stmt
override. -/
def ToTupleImplementation.foldStmts (c : ToTupleImplementation)
    (has_self_parameter : Bool) (stmts : List Stmt) :
    List Stmt × List Error :=
  let folded := stmts.map (c.foldStmt has_self_parameter)
  (folded.map Prod.fst, (folded.map Prod.snd).flatten)

/-- The default fold on one function input folds the type of a typed
argument through the fold_type override; the receiver is unchanged. -/
def ToTupleImplementation.foldFnArg (c : ToTupleImplementation) :
    FnArg → FnArg × List Error
  | FnArg.receiver => (FnArg.receiver, [])
  | FnArg.typed pat ty =>
    let r := c.foldType ty
    (FnArg.typed pat r.1, r.2)

/-- The default fold on a signature folds the inputs in order and then the
return type, each through the fold_type override (fold_signature is invoked
in semi_automatic.rs line 380). -/
def ToTupleImplementation.foldSignature (c : ToTupleImplementation)
    (sig : Signature) : Signature × List Error :=
  let ins := sig.inputs.map c.foldFnArg
  let out :=
    match sig.output with
    | none => (none, [])
    | some ty =>
      let r := c.foldType ty
      (some r.1, r.2)
  (⟨sig.ident, ins.map Prod.fst, out.1⟩, (ins.map Prod.snd).flatten ++ out.2)

/-- Mirrors the fold_impl_item_method override (semi_automatic.rs lines
369-390): compute whether the first input is a receiver, fold the
signature, then fold the body block with has_self_parameter set to that
value (the override saves the old flag, sets the new one for the block and
restores it afterwards; the flag is only read by fold_stmt, which occurs
inside blocks, so the save and restore is modelled by passing the value
down). -/
def ToTupleImplementation.foldImplItemMethod (c : ToTupleImplementation)
    (m : ImplItemMethod) : ImplItemMethod × List Error :=
  let has_self := m.hasSelf
  let s := c.foldSignature m.sig
  let b := c.foldStmts has_self m.block
  (⟨s.1, b.1⟩, s.2 ++ b.2)

/-- Mirrors the fold_impl_item override (semi_automatic.rs lines 298-314):
a for_tuples macro invocation at item position is expanded with use_self
false into a verbatim item; another macro invocation is left as it is; a
body that fails to parse contributes its error and an empty verbatim item.
All other items go through the default fold, which reaches the
fold_impl_item_method override for methods and the fold_type override for
the type of an associated type item. -/
def ToTupleImplementation.foldImplItem (c : ToTupleImplementation) :
    ImplItem → ImplItem × List Error
  | ImplItem.macItem m =>
    match ForTuplesForm.tryFrom m with
    | Except.ok (some ft) =>
      (ImplItem.verbatim (ft.expand c.tuple_placeholder_ident c.tuples false), [])
    | Except.ok none => (ImplItem.macItem m, [])
    | Except.error e => (ImplItem.verbatim [], [e])
  | ImplItem.method m =>
    let r := c.foldImplItemMethod m
    (ImplItem.method r.1, r.2)
  | ImplItem.typeItem n ty =>
    let r := c.foldType ty
    (ImplItem.typeItem n r.1, r.2)
  | ImplItem.verbatim ts => (ImplItem.verbatim ts, [])

/-- Error contributions of the items of an implementation block, in item
order. -/
def ToTupleImplementation.itemsErrors (c : ToTupleImplementation)
    (items : List ImplItem) : List Error :=
  (items.map (fun i => (c.foldImplItem i).2)).flatten

/-- The default fold of a whole implementation block through the overrides
(fold::fold_item_impl in semi_automatic.rs line 279): attributes, generics
and the trait path contain nothing the overrides rewrite on the modelled
fragment; the self type is folded through fold_type, then each item is
folded in order, and all error contributions are collected in traversal
order. -/
def ToTupleImplementation.foldItemImpl (c : ToTupleImplementation)
    (ti : ItemImpl) : ItemImpl × List Error :=
  let st := c.foldType ti.self_ty
  let its := ti.items.map c.foldImplItem
  ({ ti with self_ty := st.1, items := its.map Prod.fst },
    st.2 ++ (its.map Prod.snd).flatten)

/-- The diagnostic reported when the template does not implement a trait
(semi_automatic.rs line 243). -/
def missingTraitMsg : String :=
  "The semi-automatic implementation is required to implement a trait!"

/-- Mirrors add_tuple_elements_generics in semi_automatic.rs (lines
239-249): require the template to implement a trait, then add the tuple
element identifiers to the generics of the implementation with the trait
path as bound. -/
def add_tuple_elements_generics (tuples : List Ident)
    (trait_impl : ItemImpl) : Except Error ItemImpl :=
  match trait_impl.trait_ with
  | none => Except.error (Error.new missingTraitMsg)
  | some tr =>
    Except.ok { trait_impl with
      generics := add_tuple_element_generics tuples tr trait_impl.generics }

/-- Mirrors the error merging at the end of
ToTupleImplementation::generate_implementation (semi_automatic.rs lines
286-293): Vec::pop removes the last accumulated error; when one exists it
becomes the base of the fold and the remaining errors are combined into
it in order. Returns none when no error was accumulated. -/
def mergeErrors (errors : List Error) : Option Error :=
  match errors.getLast? with
  | none => none
  | some first_error => some (errors.dropLast.foldl Error.combine first_error)

/-- The attribute attached to every generated implementation
(semi_automatic.rs line 284). -/
def allowUnusedAttr : String := "allow(unused)"

/-- Mirrors ToTupleImplementation::generate_implementation
(semi_automatic.rs lines 267-294): fold the template, add the tuple element
generics (failing immediately when the template implements no trait),
replace the self type by the tuple type of the given identifiers, attach
the allow(unused) attribute, and finally fail with the merged accumulated
errors when there are any, otherwise return the rewritten implementation. -/
def ToTupleImplementation.generate_implementation (trait_impl : ItemImpl)
    (tuple_placeholder_ident : Ident) (tuples : List Ident) :
    Except Error ItemImpl :=
  let c : ToTupleImplementation := ⟨tuple_placeholder_ident, tuples⟩
  let r := c.foldItemImpl trait_impl
  match add_tuple_elements_generics tuples r.1 with
  | Except.error e => Except.error e
  | Except.ok res =>
    let res := { res with
      self_ty := Ty.tuple tuples,
      attrs := res.attrs ++ [allowUnusedAttr] }
    match mergeErrors r.2 with
    | some e => Except.error e
    | none => Except.ok res

/-- The diagnostic reported when the self type of the template is not a
single plain identifier (semi_automatic.rs line 403). -/
def missingSelfPlaceholderMsg : String :=
  "Expected an `Ident` as tuple placeholder."

/-- Mirrors extract_tuple_placeholder_ident (semi_automatic.rs lines
394-405): the self type must be a path type whose path is a single plain
identifier; that identifier is returned, anything else is an error. -/
def extract_tuple_placeholder_ident (trait_impl : ItemImpl) :
    Except Error Ident :=
  match trait_impl.self_ty with
  | Ty.path p =>
    match p.getIdent with
    | some ident => Except.ok ident
    | none => Except.error (Error.new missingSelfPlaceholderMsg)
  | _ => Except.error (Error.new missingSelfPlaceholderMsg)

/-- The try_for_each loop of semi_automatic_impl (semi_automatic.rs lines
416-427) over the list of arities: generate the implementation for each
arity in order, extending the result stream; the first arity whose
generation fails aborts the loop with that error. The generated stream is
modelled as the list of generated implementation blocks in order. -/
def arityLoop (trait_impl : ItemImpl) (placeholder_ident : Ident)
    (tuple_elements : List Ident) : List Nat → Except Error (List ItemImpl)
  | [] => Except.ok []
  | i :: rest =>
    match ToTupleImplementation.generate_implementation trait_impl
        placeholder_ident (tuple_elements.take i) with
    | Except.error e => Except.error e
    | Except.ok impl =>
      match arityLoop trait_impl placeholder_ident tuple_elements rest with
      | Except.error e => Except.error e
      | Except.ok impls => Except.ok (impl :: impls)

/-- The arity list iterated by semi_automatic_impl (semi_automatic.rs lines
416-419): the range from 0 up to but excluding the number of tuple
elements, with arity 1 filtered out. -/
def arityIndices (n : Nat) : List Nat :=
  (List.range n).filter (fun i => i ≠ 1)

/-- Mirrors semi_automatic_impl (semi_automatic.rs lines 408-430): extract
the placeholder identifier from the self type of the template, then run the
generation loop over the arity list, where the arity i uses the first i
tuple element identifiers. -/
def semi_automatic_impl (trait_impl : ItemImpl)
    (tuple_elements : List Ident) : Except Error (List ItemImpl) :=
  match extract_tuple_placeholder_ident trait_impl with
  | Except.error e => Except.error e
  | Except.ok placeholder_ident =>
    arityLoop trait_impl placeholder_ident tuple_elements
      (arityIndices tuple_elements.length)

/-- Mirrors generate_tuple_element_ident (lib.rs lines 179-181). -/
def generate_tuple_element_ident (num : Nat) : Ident :=
  "TupleElement" ++ toString num

/-- The tuple element identifier sequence built in impl_for_tuples_impl
(lib.rs lines 165-167): one synthesized identifier per position below the
count argument. -/
def tuple_elements_for (count : Nat) : List Ident :=
  (List.range count).map generate_tuple_element_ident

/-- The semi-automatic branch of impl_for_tuples_impl (lib.rs lines
164-177): build the tuple element identifiers from the count argument and
run the semi-automatic generation. -/
def impl_for_tuples_semi (trait_impl : ItemImpl) (count : Nat) :
    Except Error (List ItemImpl) :=
  semi_automatic_impl trait_impl (tuple_elements_for count)

/-
Observation helpers. These are not part of the source; they read facts off
the embedded values so that claims can be stated about them.
-/

/-- Does the path mention the identifier s as one of its segment
identifiers. These are exactly the identifier positions of a path that the
fold of ReplaceTuplePlaceholder visits. -/
def Path.mentionsId (p : Path) (s : Ident) : Bool :=
  p.segments.any (fun seg => seg.ident == s)

mutual

/-- Does the expression contain a bare occurrence of the identifier s in an
identifier position visited by syn folds: path segment identifiers, method
names, and the path of a macro invocation. Token bodies of macro
invocations and verbatim token streams are opaque to folds and are not
inspected. -/
def Expr.mentionsId (s : Ident) : Expr → Bool
  | Expr.path p => p.mentionsId s
  | Expr.methodCall recv meth args =>
    Expr.mentionsId s recv || meth == s || Expr.mentionsListId s args
  | Expr.selfField _ => false
  | Expr.mac m => m.path.mentionsId s
  | Expr.verbatim _ => false

/-- Does any expression of the list mention the identifier s. -/
def Expr.mentionsListId (s : Ident) : List Expr → Bool
  | [] => false
  | e :: es => Expr.mentionsId s e || Expr.mentionsListId s es

end

/-- Does the statement mention the identifier s. -/
def Stmt.mentionsId (s : Ident) : Stmt → Bool
  | Stmt.expr e => Expr.mentionsId s e
  | Stmt.semi e => Expr.mentionsId s e

mutual

/-- Does the output token mention the identifier s, looking inside rendered
statements and parenthesized groups. -/
def Token.mentionsId (s : Ident) : Token → Bool
  | Token.stmtTok st => Stmt.mentionsId s st
  | Token.identTok i => i == s
  | Token.group ts => Token.mentionsListId s ts
  | _ => false

/-- Does any token of the stream mention the identifier s. -/
def Token.mentionsListId (s : Ident) : List Token → Bool
  | [] => false
  | t :: ts => Token.mentionsId s t || Token.mentionsListId s ts

end

/-- Is the token a rendered statement. -/
def Token.isStmtTok : Token → Bool
  | Token.stmtTok _ => true
  | _ => false

/-- Number of rendered statements in an output token stream. -/
def countStmtToks (l : List Token) : Nat :=
  (l.filter Token.isStmtTok).length

/-- The list of expansion copies of a repetition, one per tuple identifier
starting at position i: the same copies that expandFrom emits, kept as
separate lists instead of being interleaved with the join tokens. -/
def TupleRepetition.copiesFrom (rep : TupleRepetition) (ph : Ident)
    (use_self : Bool) : Nat → List Ident → List (List Token)
  | _, [] => []
  | i, t :: ts => rep.copyAt ph use_self i t :: rep.copiesFrom ph use_self (i + 1) ts

/-- Joins the chunks with the separator appearing between consecutive
chunks and nowhere else. -/
def sepJoin (sep : List Token) : List (List Token) → List Token
  | [] => []
  | [x] => x
  | x :: xs => x ++ sep ++ sepJoin sep xs

/-- Modelled from the spec: when the join token is present the expansion
copies are joined as a comma separated list with the separator between
consecutive copies, and when it is absent they are concatenated with no
separator. This follows the words of the claim and is compared against the
implemented TupleRepetition.expand. -/
def TupleRepetition.expandSpecSeparated (rep : TupleRepetition) (ph : Ident)
    (tuples : List Ident) (use_self : Bool) : List Token :=
  if rep.comma_token then sepJoin [Token.comma] (rep.copiesFrom ph use_self 0 tuples)
  else (rep.copiesFrom ph use_self 0 tuples).flatten

/-- Modelled from the spec: a variant of semi_automatic_impl in which each
arity of the arity list is attempted independently and the errors of all
failing arities are collected across the whole run and combined into one
reported failure. This follows the words of the claim about error handling
across arities and is compared against the implemented
semi_automatic_impl. -/
def semi_automatic_impl_collecting (trait_impl : ItemImpl)
    (tuple_elements : List Ident) : Except Error (List ItemImpl) :=
  match extract_tuple_placeholder_ident trait_impl with
  | Except.error e => Except.error e
  | Except.ok placeholder_ident =>
    let results := (arityIndices tuple_elements.length).map
      (fun i => ToTupleImplementation.generate_implementation trait_impl
        placeholder_ident (tuple_elements.take i))
    match results.filterMap (fun r => match r with
        | Except.error e => some e | Except.ok _ => none) with
    | [] => Except.ok (results.filterMap (fun r => match r with
        | Except.ok impl => some impl | Except.error _ => none))
    | e :: es => Except.error (es.foldl Error.combine e)

/-- Modelled from the spec: merging in which the first accumulated
diagnostic is the primary error and all later diagnostics are attached to
it in order as secondary notes. This follows the words of the claim about
diagnostic merging and is compared against the implemented mergeErrors. -/
def mergeErrorsSpecFirstPrimary (errors : List Error) : Option Error :=
  match errors with
  | [] => none
  | e :: rest => some (rest.foldl Error.combine e)

/-- The length of the error payload of a result, zero for success. -/
def exceptErrorLength (r : Except Error (List ItemImpl)) : Nat :=
  match r with
  | Except.error e => e.length
  | Except.ok _ => 0

/-- The arity recorded in a generated implementation block: the number of
element identifiers of its tuple self type. -/
def ItemImpl.generatedArity (ti : ItemImpl) : Nat :=
  match ti.self_ty with
  | Ty.tuple ts => ts.length
  | _ => 0

/-
Concrete inputs used for evaluations, counterexamples and witnesses.
-/

/-- A well formed semi-automatic template: implements trait Trait for the
placeholder Tuple and contains a single method without statements. -/
def exampleImpl : ItemImpl :=
  { attrs := []
    generics := ⟨[], []⟩
    trait_ := some (Path.ofIdent "Trait")
    self_ty := Ty.path (Path.ofIdent "Tuple")
    items := [ImplItem.method ⟨⟨"test", [], none⟩, []⟩] }

/-- A template whose self type is a single identifier with generic
arguments, hence not a plain identifier. -/
def genericSelfTyImpl : ItemImpl :=
  { attrs := []
    generics := ⟨[], []⟩
    trait_ := some (Path.ofIdent "Trait")
    self_ty := Ty.path ⟨false, [⟨"Tuple", true⟩]⟩
    items := [] }

/-- A repetition body consisting of the single statement
Tuple.foo(Tuple); whose method call has the placeholder both as receiver
and as argument. -/
def c2Rep : TupleRepetition :=
  TupleRepetition.mk
    [Stmt.semi (Expr.methodCall (Expr.path (Path.ofIdent "Tuple")) "foo"
      [Expr.path (Path.ofIdent "Tuple")])] false

/-- A repetition body with one statement and with the comma join token
present. -/
def c4Rep : TupleRepetition :=
  TupleRepetition.mk [Stmt.semi (Expr.path (Path.ofIdent "Tuple"))] true

/-- A template containing a single malformed for_tuples marker, so that
every arity fails to generate. -/
def c5Impl : ItemImpl :=
  { attrs := []
    generics := ⟨[], []⟩
    trait_ := some (Path.ofIdent "Trait")
    self_ty := Ty.path (Path.ofIdent "Tuple")
    items := [ImplItem.macItem (MacroCall.mk (Path.ofIdent "for_tuples")
      (MacroBody.malformed "unexpected token"))] }

/-- A template containing two malformed for_tuples markers with distinct
messages, in item order. -/
def c6Impl : ItemImpl :=
  { attrs := []
    generics := ⟨[], []⟩
    trait_ := some (Path.ofIdent "Trait")
    self_ty := Ty.path (Path.ofIdent "Tuple")
    items := [
      ImplItem.macItem (MacroCall.mk (Path.ofIdent "for_tuples")
        (MacroBody.malformed "first marker error")),
      ImplItem.macItem (MacroCall.mk (Path.ofIdent "for_tuples")
        (MacroBody.malformed "second marker error"))] }

/-- A macro invocation whose path is not for_tuples and whose token body
would not parse with the for_tuples grammar. -/
def otherMacroCall : MacroCall :=
  MacroCall.mk (Path.ofIdent "vec") (MacroBody.malformed "not for_tuples syntax")

/-- The successful result list of the semi-automatic generation on the
example template with three tuple elements, used as a concrete witness. -/
def c9okList : List ItemImpl :=
  match semi_automatic_impl exampleImpl (tuple_elements_for 3) with
  | Except.ok l => l
  | Except.error _ => []

/-
Helper lemmas about the replacement fold and the expansion.
-/

theorem foldIdent_ne (f : ReplaceTuplePlaceholder) (hr : f.replace ≠ f.search)
    (i : Ident) : f.foldIdent i ≠ f.search := by
  unfold ReplaceTuplePlaceholder.foldIdent
  split
  · exact hr
  · next h => exact h

theorem foldPath_not_mentions (f : ReplaceTuplePlaceholder)
    (hr : f.replace ≠ f.search) (p : Path) :
    (f.foldPath p).mentionsId f.search = false := by
  simp only [ReplaceTuplePlaceholder.foldPath, Path.mentionsId, List.any_map,
    List.any_eq_false, Function.comp]
  intro seg _
  simp only [beq_iff_eq]
  exact foldIdent_ne f hr seg.ident

mutual

theorem foldExpr_not_mentions (f : ReplaceTuplePlaceholder)
    (hr : f.replace ≠ f.search) (hu : f.use_self = false) :
    (e : Expr) → Expr.mentionsId f.search (f.foldExpr e) = false
  | Expr.path p => by
    simp only [ReplaceTuplePlaceholder.foldExpr, Expr.mentionsId]
    exact foldPath_not_mentions f hr p
  | Expr.methodCall recv meth args => by
    simp only [ReplaceTuplePlaceholder.foldExpr, hu, Bool.false_and,
      Bool.false_eq_true, if_false, Expr.mentionsId, Bool.or_eq_false_iff]
    exact ⟨⟨foldExpr_not_mentions f hr hu recv,
      beq_eq_false_iff_ne.2 (foldIdent_ne f hr meth)⟩,
      foldExprList_not_mentions f hr hu args⟩
  | Expr.selfField i => by
    simp [ReplaceTuplePlaceholder.foldExpr, Expr.mentionsId]
  | Expr.mac m => by
    simp only [ReplaceTuplePlaceholder.foldExpr, Expr.mentionsId, MacroCall.path]
    exact foldPath_not_mentions f hr m.path
  | Expr.verbatim ts => by
    simp [ReplaceTuplePlaceholder.foldExpr, Expr.mentionsId]

theorem foldExprList_not_mentions (f : ReplaceTuplePlaceholder)
    (hr : f.replace ≠ f.search) (hu : f.use_self = false) :
    (es : List Expr) →
      Expr.mentionsListId f.search (ReplaceTuplePlaceholder.foldExprList f es) = false
  | [] => rfl
  | e :: es => by
    simp only [ReplaceTuplePlaceholder.foldExprList, Expr.mentionsListId,
      Bool.or_eq_false_iff]
    exact ⟨foldExpr_not_mentions f hr hu e, foldExprList_not_mentions f hr hu es⟩

end

theorem foldStmt_not_mentions (f : ReplaceTuplePlaceholder)
    (hr : f.replace ≠ f.search) (hu : f.use_self = false) :
    (st : Stmt) → Stmt.mentionsId f.search (f.foldStmt st) = false
  | Stmt.expr e => foldExpr_not_mentions f hr hu e
  | Stmt.semi e => foldExpr_not_mentions f hr hu e

theorem replace_not_mentions (ph t : Ident) (h : t ≠ ph) (i : Nat) (st : Stmt) :
    Stmt.mentionsId ph
      (ReplaceTuplePlaceholder.replace_ident_in_stmt ph t false i st) = false :=
  foldStmt_not_mentions ⟨ph, t, false, i⟩ h rfl st

theorem mentionsListId_eq_any (s : Ident) :
    (l : List Token) → Token.mentionsListId s l = l.any (Token.mentionsId s)
  | [] => rfl
  | t :: ts => by
    rw [Token.mentionsListId, List.any_cons, mentionsListId_eq_any s ts]

theorem copyAt_not_mentions (rep : TupleRepetition) (ph t : Ident)
    (h : t ≠ ph) (i : Nat) :
    Token.mentionsListId ph (rep.copyAt ph false i t) = false := by
  rw [mentionsListId_eq_any, List.any_eq_false]
  intro tok htok
  simp only [TupleRepetition.copyAt, List.mem_map] at htok
  obtain ⟨st, _, rfl⟩ := htok
  simp [Token.mentionsId, replace_not_mentions ph t h i st]

theorem expandFrom_not_mentions (rep : TupleRepetition) (ph : Ident)
    (tuples : List Ident) (h : ∀ t ∈ tuples, t ≠ ph) (n : Nat) :
    Token.mentionsListId ph (rep.expandFrom ph false n tuples) = false := by
  induction tuples generalizing n with
  | nil => rfl
  | cons t ts ih =>
    simp only [TupleRepetition.expandFrom, mentionsListId_eq_any, List.any_append,
      Bool.or_eq_false_iff]
    refine ⟨⟨?_, ?_⟩, ?_⟩
    · rw [← mentionsListId_eq_any]
      exact copyAt_not_mentions rep ph t (h t (by simp)) n
    · cases rep.comma_token <;> simp [Token.mentionsId]
    · rw [← mentionsListId_eq_any]
      exact ih (fun x hx => h x (by simp [hx])) (n + 1)

theorem countStmtToks_append (a b : List Token) :
    countStmtToks (a ++ b) = countStmtToks a + countStmtToks b := by
  simp [countStmtToks, List.filter_append]

theorem countStmtToks_copyAt (rep : TupleRepetition) (ph : Ident) (u : Bool)
    (i : Nat) (t : Ident) :
    countStmtToks (rep.copyAt ph u i t) = rep.stmts.length := by
  unfold TupleRepetition.copyAt
  generalize rep.stmts = l
  induction l with
  | nil => rfl
  | cons s ss ih =>
    simp only [List.map_cons, countStmtToks, List.filter_cons, Token.isStmtTok,
      if_true, List.length_cons] at ih ⊢
    omega

theorem countStmtToks_expandFrom (rep : TupleRepetition) (ph : Ident) (u : Bool)
    (tuples : List Ident) (n : Nat) :
    countStmtToks (rep.expandFrom ph u n tuples)
      = tuples.length * rep.stmts.length := by
  induction tuples generalizing n with
  | nil => simp [TupleRepetition.expandFrom, countStmtToks]
  | cons t ts ih =>
    simp only [TupleRepetition.expandFrom, countStmtToks_append,
      countStmtToks_copyAt, List.length_cons, ih (n + 1)]
    have hc : countStmtToks (if rep.comma_token then [Token.comma] else []) = 0 := by
      cases rep.comma_token <;> rfl
    rw [hc]
    ring

theorem expandFrom_selfField (ph meth : Ident) (tuples : List Ident) (n : Nat) :
    (TupleRepetition.mk
        [Stmt.semi (Expr.methodCall (Expr.path (Path.ofIdent ph)) meth [])]
        false).expandFrom ph true n tuples
      = (List.range' n tuples.length).map (fun j =>
          Token.stmtTok (Stmt.semi (Expr.methodCall (Expr.selfField j) meth []))) := by
  induction tuples generalizing n with
  | nil => simp [TupleRepetition.expandFrom]
  | cons t ts ih =>
    simp only [TupleRepetition.expandFrom, TupleRepetition.copyAt,
      TupleRepetition.stmts, TupleRepetition.comma_token, List.map_cons,
      List.map_nil, ReplaceTuplePlaceholder.replace_ident_in_stmt,
      ReplaceTuplePlaceholder.foldStmt, ReplaceTuplePlaceholder.foldExpr,
      Expr.isPlaceholderPath, Path.isIdent, Path.getIdent, Path.ofIdent,
      List.length_cons, List.range'_succ]
    simp only [List.map_cons, List.cons_append, List.nil_append, List.cons.injEq]
    exact ⟨by simp, ih (n + 1)⟩

theorem expandFrom_no_comma (stmts : List Stmt) (ph : Ident) (u : Bool)
    (tuples : List Ident) (n : Nat) :
    (TupleRepetition.mk stmts false).expandFrom ph u n tuples
      = ((TupleRepetition.mk stmts false).copiesFrom ph u n tuples).flatten := by
  induction tuples generalizing n with
  | nil => simp [TupleRepetition.expandFrom, TupleRepetition.copiesFrom]
  | cons t ts ih =>
    simp [TupleRepetition.expandFrom, TupleRepetition.copiesFrom,
      TupleRepetition.comma_token, ih (n + 1)]

theorem expandFrom_with_comma (stmts : List Stmt) (ph : Ident) (u : Bool)
    (tuples : List Ident) (n : Nat) :
    (TupleRepetition.mk stmts true).expandFrom ph u n tuples
      = (((TupleRepetition.mk stmts true).copiesFrom ph u n tuples).map
          (fun c => c ++ [Token.comma])).flatten := by
  induction tuples generalizing n with
  | nil => simp [TupleRepetition.expandFrom, TupleRepetition.copiesFrom]
  | cons t ts ih =>
    simp [TupleRepetition.expandFrom, TupleRepetition.copiesFrom,
      TupleRepetition.comma_token, ih (n + 1), List.append_assoc]

theorem flatten_map_append_singleton (c : Token) :
    (l : List (List Token)) →
    (l.map (fun x => x ++ [c])).flatten
      = sepJoin [c] l ++ (if l.isEmpty then [] else [c])
  | [] => by simp [sepJoin]
  | [x] => by simp [sepJoin]
  | x :: y :: ys => by
    have ih := flatten_map_append_singleton c (y :: ys)
    simp only [List.map_cons, List.flatten_cons] at ih ⊢
    rw [ih]
    simp [sepJoin, List.append_assoc]

theorem copiesFrom_isEmpty (rep : TupleRepetition) (ph : Ident) (u : Bool)
    (n : Nat) (tuples : List Ident) :
    (rep.copiesFrom ph u n tuples).isEmpty = tuples.isEmpty := by
  cases tuples <;> simp [TupleRepetition.copiesFrom]

/-
Claim theorems.
-/

/-- C1: the claim states that an invocation with arity count N emits
exactly one implementation block per arity in the inclusive range from 0
to N with 1 removed. The generation loop in semi_automatic_impl iterates
the exclusive range from 0 up to the number of tuple elements, so for
count 5 the generated arities are 0, 2, 3 and 4 and no arity 5
implementation exists, contradicting the claim and the crate documentation
in lib.rs, which lists five generated tuple combinations for count 5. This
theorem evaluates the generator at that failing input. -/
theorem c1_arity_range_evaluation :
    (impl_for_tuples_semi exampleImpl 5).map
        (fun impls => impls.map ItemImpl.generatedArity)
      = Except.ok [0, 2, 3, 4] := rfl

/-- C2 counterexample: in a method with a receiver the marker statement
with body Tuple.foo(Tuple) expands for one tuple element to
self.0.foo(Tuple), leaving the placeholder occurrence inside the argument
list of the rewritten method call unreplaced, so an occurrence of the
original placeholder identifier remains in the expanded output. -/
theorem c2_counterexample :
    c2Rep.expand "Tuple" ["TupleElement0"] true
        = [Token.stmtTok (Stmt.semi (Expr.methodCall (Expr.selfField 0) "foo"
            [Expr.path (Path.ofIdent "Tuple")]))]
  ∧ Token.mentionsListId "Tuple" (c2Rep.expand "Tuple" ["TupleElement0"] true)
        = true :=
  ⟨rfl, rfl⟩

/-- C2 amended: expansion of a repetition marker with an identifier
sequence of length k always produces exactly k copies of the marker body,
and when the enclosing method has no receiver, provided no tuple element
identifier equals the placeholder, no occurrence of the placeholder
identifier remains in the expanded output. When the method has a receiver
and the placeholder is the receiver of a method call, only the receiver of
that call is rewritten and placeholder occurrences inside its argument
list survive, as the counterexample shows. -/
theorem c2_amended :
    (∀ (rep : TupleRepetition) (ph : Ident) (tuples : List Ident) (u : Bool),
        countStmtToks (rep.expand ph tuples u) = tuples.length * rep.stmts.length)
  ∧ (∀ (rep : TupleRepetition) (ph : Ident) (tuples : List Ident),
        (∀ t ∈ tuples, t ≠ ph) →
        Token.mentionsListId ph (rep.expand ph tuples false) = false) :=
  ⟨fun rep ph tuples u => countStmtToks_expandFrom rep ph u tuples 0,
   fun rep ph tuples h => expandFrom_not_mentions rep ph tuples h 0⟩

/-- C2 amended witness: the amended statement evaluated on a concrete
marker body and a concrete two element identifier sequence. -/
theorem c2_amended_witness :
    countStmtToks (c2Rep.expand "Tuple" ["TupleElement0", "TupleElement1"] true)
        = 2 * 1
  ∧ Token.mentionsListId "Tuple"
        (c2Rep.expand "Tuple" ["TupleElement0", "TupleElement1"] false) = false :=
  ⟨c2_amended.1 c2Rep "Tuple" ["TupleElement0", "TupleElement1"] true,
   c2_amended.2 c2Rep "Tuple" ["TupleElement0", "TupleElement1"] (by decide)⟩

/-- C3: when the enclosing method has a receiver, a method call whose
receiver is the placeholder path is rewritten so that its receiver becomes
the field access on the receiver at the position index, with method name
and arguments untouched; when it has no receiver, the same call instead has
its receiver renamed to the substituted identifier and is folded as usual;
and across the k expansions of a marker body consisting of the statement
Placeholder.method(), the copies carry the receiver indices 0 through k-1
in position order. -/
theorem c3_receiver_rewrite (s r meth : Ident) (i : Nat) (args : List Expr) :
    (ReplaceTuplePlaceholder.foldExpr ⟨s, r, true, i⟩
        (Expr.methodCall (Expr.path (Path.ofIdent s)) meth args)
      = Expr.methodCall (Expr.selfField i) meth args)
  ∧ (ReplaceTuplePlaceholder.foldExpr ⟨s, r, false, i⟩
        (Expr.methodCall (Expr.path (Path.ofIdent s)) meth args)
      = Expr.methodCall (Expr.path (Path.ofIdent r)) (if meth = s then r else meth)
          (ReplaceTuplePlaceholder.foldExprList ⟨s, r, false, i⟩ args))
  ∧ (∀ (ph : Ident) (tuples : List Ident),
      (TupleRepetition.mk
          [Stmt.semi (Expr.methodCall (Expr.path (Path.ofIdent ph)) meth [])]
          false).expand ph tuples true
        = (List.range tuples.length).map (fun j =>
            Token.stmtTok (Stmt.semi (Expr.methodCall (Expr.selfField j) meth [])))) := by
  refine ⟨?_, ?_, ?_⟩
  · simp [ReplaceTuplePlaceholder.foldExpr, Expr.isPlaceholderPath, Path.isIdent,
      Path.getIdent, Path.ofIdent]
  · simp [ReplaceTuplePlaceholder.foldExpr, Expr.isPlaceholderPath,
      ReplaceTuplePlaceholder.foldPath, ReplaceTuplePlaceholder.foldIdent,
      Path.ofIdent]
  · intro ph tuples
    rw [TupleRepetition.expand, expandFrom_selfField, List.range_eq_range']

/-- C4 counterexample: with the join token present and a single expansion
copy, the implemented expansion emits a comma after the copy, while the
claimed joining with the separator only between consecutive copies emits
no separator at all; the two outputs differ. -/
theorem c4_counterexample :
    c4Rep.expand "Tuple" ["TupleElement0"] false
        = [Token.stmtTok (Stmt.semi (Expr.path (Path.ofIdent "TupleElement0"))),
            Token.comma]
  ∧ c4Rep.expandSpecSeparated "Tuple" ["TupleElement0"] false
        = [Token.stmtTok (Stmt.semi (Expr.path (Path.ofIdent "TupleElement0")))]
  ∧ c4Rep.expand "Tuple" ["TupleElement0"] false
        ≠ c4Rep.expandSpecSeparated "Tuple" ["TupleElement0"] false := by
  refine ⟨rfl, rfl, fun h => ?_⟩
  exact absurd (congrArg List.length h) (by decide)

/-- C4 amended: with the join token absent, the k copies are concatenated
with no separator token; with it present, the copies are joined with the
separator between consecutive copies and one additional trailing separator
after the last copy whenever at least one copy exists. -/
theorem c4_amended (stmts : List Stmt) (ph : Ident) (u : Bool)
    (tuples : List Ident) :
    ((TupleRepetition.mk stmts false).expand ph tuples u
        = ((TupleRepetition.mk stmts false).copiesFrom ph u 0 tuples).flatten)
  ∧ ((TupleRepetition.mk stmts true).expand ph tuples u
        = sepJoin [Token.comma]
            ((TupleRepetition.mk stmts true).copiesFrom ph u 0 tuples)
          ++ (if tuples.isEmpty then [] else [Token.comma])) := by
  constructor
  · exact expandFrom_no_comma stmts ph u tuples 0
  · rw [TupleRepetition.expand, expandFrom_with_comma,
      flatten_map_append_singleton, copiesFrom_isEmpty]

/-- C5 counterexample: with a template containing one malformed marker
every arity fails to generate. The implemented run returns only the error
of the first attempted arity, while the claimed collection across the
whole run over all arities, modelled by semi_automatic_impl_collecting,
returns the combined errors of all three attempted arities; the two
results differ at this input. -/
theorem c5_counterexample :
    semi_automatic_impl c5Impl (tuple_elements_for 4)
        = Except.error ["unexpected token"]
  ∧ ToTupleImplementation.generate_implementation c5Impl "Tuple"
        ((tuple_elements_for 4).take 2) = Except.error ["unexpected token"]
  ∧ semi_automatic_impl_collecting c5Impl (tuple_elements_for 4)
        = Except.error ["unexpected token", "unexpected token", "unexpected token"]
  ∧ semi_automatic_impl c5Impl (tuple_elements_for 4)
        ≠ semi_automatic_impl_collecting c5Impl (tuple_elements_for 4) := by
  refine ⟨rfl, rfl, rfl, fun h => ?_⟩
  exact absurd (congrArg exceptErrorLength h) (by decide)

/-- C5 amended: error accumulation happens only within one arity: the
per-arity loop short-circuits, so when generation fails for the first
arity of the remaining arity list the loop returns the merged error of
that arity alone and the remaining arities contribute nothing. -/
theorem c5_amended (trait_impl : ItemImpl) (ph : Ident) (tes : List Ident)
    (i : Nat) (rest : List Nat) (e : Error)
    (h : ToTupleImplementation.generate_implementation trait_impl ph
        (tes.take i) = Except.error e) :
    arityLoop trait_impl ph tes (i :: rest) = Except.error e := by
  simp [arityLoop, h]

/-- C5 amended witness: the short-circuit evaluated on the concrete
failing template with arity list 0, 2, 3. -/
theorem c5_amended_witness :
    ToTupleImplementation.generate_implementation c5Impl "Tuple"
        ((tuple_elements_for 4).take 0) = Except.error ["unexpected token"]
  ∧ arityLoop c5Impl "Tuple" (tuple_elements_for 4) [0, 2, 3]
        = Except.error ["unexpected token"] :=
  ⟨rfl, c5_amended c5Impl "Tuple" (tuple_elements_for 4) 0 [2, 3]
    ["unexpected token"] rfl⟩

/-- C6 counterexample: a template with two malformed markers accumulates
their diagnostics in item order, first marker error then second marker
error; the implemented merge makes the last accumulated diagnostic the
primary one and reports second marker error first, while the claimed merge
with the first accumulated diagnostic as primary, modelled by
mergeErrorsSpecFirstPrimary, would report first marker error first; the
two merges differ on the accumulated list. -/
theorem c6_counterexample :
    (ToTupleImplementation.foldItemImpl ⟨"Tuple", []⟩ c6Impl).2
        = [["first marker error"], ["second marker error"]]
  ∧ ToTupleImplementation.generate_implementation c6Impl "Tuple" []
        = Except.error ["second marker error", "first marker error"]
  ∧ mergeErrorsSpecFirstPrimary [["first marker error"], ["second marker error"]]
        = some ["first marker error", "second marker error"]
  ∧ mergeErrors [["first marker error"], ["second marker error"]]
        ≠ mergeErrorsSpecFirstPrimary [["first marker error"], ["second marker error"]] := by
  refine ⟨rfl, rfl, rfl, ?_⟩
  decide

theorem foldl_combine_eq (es : List Error) : ∀ acc : Error,
    es.foldl Error.combine acc = acc ++ es.flatten := by
  induction es with
  | nil => intro acc; simp
  | cons x xs ih =>
    intro acc
    simp [List.foldl_cons, Error.combine, ih (acc ++ x), List.append_assoc]

/-- C6 amended: all diagnostics accumulated during one arity tree rewrite
are merged into a single failure whose primary diagnostic is the last
accumulated one, with all earlier diagnostics attached after it in
accumulation order; and the rewrite does not stop at the first malformed
marker: the error contributions of the items of the template are collected
across all items, so items after a failing one still contribute. -/
theorem c6_amended :
    (∀ (es : List Error) (e : Error),
        mergeErrors (es ++ [e]) = some (e ++ es.flatten))
  ∧ (∀ (c : ToTupleImplementation) (xs ys : List ImplItem),
        c.itemsErrors (xs ++ ys) = c.itemsErrors xs ++ c.itemsErrors ys)
  ∧ (∀ (c : ToTupleImplementation) (ti : ItemImpl),
        (c.foldItemImpl ti).2
          = (c.foldType ti.self_ty).2 ++ c.itemsErrors ti.items) := by
  refine ⟨?_, ?_, ?_⟩
  · intro es e
    simp [mergeErrors, List.getLast?_concat, List.dropLast_concat, foldl_combine_eq]
  · intro c xs ys
    simp [ToTupleImplementation.itemsErrors]
  · intro c ti
    simp [ToTupleImplementation.foldItemImpl, ToTupleImplementation.itemsErrors,
      Function.comp_def]

theorem getIdent_eq_some_iff (p : Path) (i : Ident) :
    p.getIdent = some i ↔ p = Path.ofIdent i := by
  obtain ⟨lc, segs⟩ := p
  cases lc
  · cases segs with
    | nil => simp [Path.getIdent, Path.ofIdent]
    | cons s rest =>
      cases rest with
      | nil =>
        obtain ⟨id, args⟩ := s
        cases args <;> simp [Path.getIdent, Path.ofIdent]
      | cons s2 rest2 => simp [Path.getIdent, Path.ofIdent]
  · simp [Path.getIdent, Path.ofIdent]

theorem extract_ok_iff (ti : ItemImpl) (i : Ident) :
    extract_tuple_placeholder_ident ti = Except.ok i
      ↔ ti.self_ty = Ty.path (Path.ofIdent i) := by
  unfold extract_tuple_placeholder_ident
  cases hty : ti.self_ty with
  | path p =>
    simp only [Ty.path.injEq, ← getIdent_eq_some_iff]
    cases hg : p.getIdent with
    | none => simp [Error.new]
    | some j => simp
  | mac m => simp
  | tuple ts => simp
  | verbatim ts => simp

theorem extract_error_eq (ti : ItemImpl) (e : Error)
    (h : extract_tuple_placeholder_ident ti = Except.error e) :
    e = [missingSelfPlaceholderMsg] := by
  unfold extract_tuple_placeholder_ident at h
  split at h
  · split at h
    · cases h
    · cases h; rfl
  · cases h; rfl

/-- C7: the placeholder extraction succeeds exactly when the self type of
the template is a path consisting of a single plain identifier, in which
case that identifier is the placeholder for the whole pass; with any other
self type the generator returns the missing self placeholder diagnostic
and emits no generated implementation at all. -/
theorem c7_self_type_placeholder (ti : ItemImpl) (tes : List Ident) :
    (∀ i : Ident, extract_tuple_placeholder_ident ti = Except.ok i
        ↔ ti.self_ty = Ty.path (Path.ofIdent i))
  ∧ ((∀ i : Ident, ti.self_ty ≠ Ty.path (Path.ofIdent i)) →
      semi_automatic_impl ti tes = Except.error [missingSelfPlaceholderMsg])
  ∧ (∀ i : Ident, ti.self_ty = Ty.path (Path.ofIdent i) →
      semi_automatic_impl ti tes
        = arityLoop ti i tes (arityIndices tes.length)) := by
  refine ⟨fun i => extract_ok_iff ti i, ?_, ?_⟩
  · intro hni
    cases hx : extract_tuple_placeholder_ident ti with
    | ok j => exact absurd ((extract_ok_iff ti j).1 hx) (hni j)
    | error e =>
      have he := extract_error_eq ti e hx
      subst he
      simp [semi_automatic_impl, hx]
  · intro i hi
    have hx := (extract_ok_iff ti i).2 hi
    simp [semi_automatic_impl, hx]

/-- C7 witness: the characterization evaluated on a template with a plain
identifier self type and on a template whose self type identifier carries
generic arguments. -/
theorem c7_witness :
    (extract_tuple_placeholder_ident exampleImpl = Except.ok "Tuple"
        ↔ exampleImpl.self_ty = Ty.path (Path.ofIdent "Tuple"))
  ∧ semi_automatic_impl genericSelfTyImpl (tuple_elements_for 2)
        = Except.error [missingSelfPlaceholderMsg]
  ∧ semi_automatic_impl exampleImpl (tuple_elements_for 2)
        = arityLoop exampleImpl "Tuple" (tuple_elements_for 2)
            (arityIndices (tuple_elements_for 2).length) :=
  ⟨(c7_self_type_placeholder exampleImpl (tuple_elements_for 2)).1 "Tuple",
   (c7_self_type_placeholder genericSelfTyImpl (tuple_elements_for 2)).2.1
     (fun i => by simp [genericSelfTyImpl, Path.ofIdent]),
   (c7_self_type_placeholder exampleImpl (tuple_elements_for 2)).2.2 "Tuple" rfl⟩

/-- C8: generics injection takes exactly one of two paths, decided by
whether any declared type parameter already carries one of the tuple
element identifiers: on the first path one where clause predicate per
tuple element is appended and the parameter list is unchanged; on the
second path each tuple element is appended as a brand new type parameter
carrying the bound; and in both cases no parameter name ends up declared
twice, provided the declared parameter names and the tuple element
identifiers are each free of duplicates. -/
theorem c8_generics_injection (tes : List Ident) (bounds : Path) (g : Generics) :
    (g.params.any (fun t => tes.any (fun t2 => t2 == t.ident)) = true →
        (add_tuple_element_generics tes bounds g).params = g.params
      ∧ (add_tuple_element_generics tes bounds g).wherePredicates
          = g.wherePredicates ++ tes.map (fun te => ⟨te, bounds⟩))
  ∧ (g.params.any (fun t => tes.any (fun t2 => t2 == t.ident)) = false →
        (add_tuple_element_generics tes bounds g).wherePredicates
          = g.wherePredicates
      ∧ (add_tuple_element_generics tes bounds g).params
          = g.params ++ tes.map (fun te => ⟨te, some bounds⟩))
  ∧ ((g.params.map TypeParam.ident).Nodup → tes.Nodup →
      ((add_tuple_element_generics tes bounds g).params.map TypeParam.ident).Nodup) := by
  refine ⟨?_, ?_, ?_⟩
  · intro h
    constructor <;> simp [add_tuple_element_generics, h]
  · intro h
    constructor <;> simp [add_tuple_element_generics, h]
  · intro hp ht
    cases hc : g.params.any (fun t => tes.any (fun t2 => t2 == t.ident)) with
    | true =>
      simp only [add_tuple_element_generics, hc, if_true]
      exact hp
    | false =>
      have hrw : ((g.params ++ tes.map
            (fun te => (⟨te, some bounds⟩ : TypeParam))).map TypeParam.ident)
          = g.params.map TypeParam.ident ++ tes := by
        simp [Function.comp_def]
      simp only [add_tuple_element_generics, hc, Bool.false_eq_true, if_false]
      rw [hrw, List.nodup_append]
      refine ⟨hp, ht, ?_⟩
      intro a ha hb
      simp only [List.mem_map] at ha
      obtain ⟨t, htmem, rfl⟩ := ha
      have h1 : (tes.any fun t2 => t2 == t.ident) = false :=
        Bool.eq_false_iff.2 (List.any_eq_false.1 hc t htmem)
      exact List.any_eq_false.1 h1 t.ident hb (by simp)

/-- C8 witness: both paths evaluated on concrete generic parameter lists,
one already declaring a tuple element identifier and one not. -/
theorem c8_witness :
    ((add_tuple_element_generics ["TupleElement0"] (Path.ofIdent "Trait")
        ⟨[⟨"TupleElement0", none⟩], []⟩).params = [⟨"TupleElement0", none⟩]
      ∧ (add_tuple_element_generics ["TupleElement0"] (Path.ofIdent "Trait")
          ⟨[⟨"TupleElement0", none⟩], []⟩).wherePredicates
        = [⟨"TupleElement0", Path.ofIdent "Trait"⟩])
  ∧ ((add_tuple_element_generics ["TupleElement0"] (Path.ofIdent "Trait")
        ⟨[], []⟩).wherePredicates = []
      ∧ (add_tuple_element_generics ["TupleElement0"] (Path.ofIdent "Trait")
          ⟨[], []⟩).params = [⟨"TupleElement0", some (Path.ofIdent "Trait")⟩])
  ∧ ((add_tuple_element_generics ["TupleElement0"] (Path.ofIdent "Trait")
        ⟨[], []⟩).params.map TypeParam.ident).Nodup :=
  ⟨(c8_generics_injection ["TupleElement0"] (Path.ofIdent "Trait")
      ⟨[⟨"TupleElement0", none⟩], []⟩).1 rfl,
   (c8_generics_injection ["TupleElement0"] (Path.ofIdent "Trait") ⟨[], []⟩).2.1 rfl,
   (c8_generics_injection ["TupleElement0"] (Path.ofIdent "Trait") ⟨[], []⟩).2.2
     (by simp) (by simp)⟩

theorem generate_ok_self_ty (ti : ItemImpl) (ph : Ident) (tuples : List Ident)
    (res : ItemImpl)
    (h : ToTupleImplementation.generate_implementation ti ph tuples
        = Except.ok res) :
    res.self_ty = Ty.tuple tuples := by
  simp only [ToTupleImplementation.generate_implementation] at h
  split at h
  · cases h
  · split at h
    · cases h
    · injection h with h2
      subst h2
      rfl

theorem arityLoop_ok_mem (ti : ItemImpl) (ph : Ident) (tes : List Ident) :
    ∀ (idxs : List Nat) (impls : List ItemImpl),
      arityLoop ti ph tes idxs = Except.ok impls →
      ∀ impl ∈ impls, ∃ i, i ∈ idxs ∧ impl.self_ty = Ty.tuple (tes.take i) := by
  intro idxs
  induction idxs with
  | nil =>
    intro impls h impl hmem
    simp only [arityLoop] at h
    injection h with h2
    subst h2
    simp at hmem
  | cons i rest ih =>
    intro impls h impl hmem
    simp only [arityLoop] at h
    cases hgen : ToTupleImplementation.generate_implementation ti ph (tes.take i) with
    | error e => rw [hgen] at h; cases h
    | ok first =>
      rw [hgen] at h
      cases hrest : arityLoop ti ph tes rest with
      | error e => rw [hrest] at h; cases h
      | ok impls2 =>
        rw [hrest] at h
        injection h with h2
        subst h2
        rcases List.mem_cons.1 hmem with rfl | hmem2
        · exact ⟨i, List.mem_cons_self i rest,
            generate_ok_self_ty ti ph (tes.take i) impl hgen⟩
        · obtain ⟨j, hj, hty⟩ := ih impls2 hrest impl hmem2
          exact ⟨j, List.mem_cons_of_mem i hj, hty⟩

/-- Decides whether a generated implementation block targets a tuple type
whose arity is different from one. -/
def ItemImpl.tupleArityNeOne (ti : ItemImpl) : Bool :=
  match ti.self_ty with
  | Ty.tuple ts => decide (ts.length ≠ 1)
  | _ => false

/-- C9: no implementation block for the tuple of exactly one element is
ever emitted: every implementation produced by a successful semi-automatic
run targets a tuple self type whose arity is not one, because the
generation loop filters arity 1 out unconditionally. -/
theorem c9_arity_one_skipped (trait_impl : ItemImpl) (tes : List Ident)
    (impls : List ItemImpl)
    (h : semi_automatic_impl trait_impl tes = Except.ok impls) :
    impls.all ItemImpl.tupleArityNeOne = true := by
  unfold semi_automatic_impl at h
  cases hx : extract_tuple_placeholder_ident trait_impl with
  | error e => rw [hx] at h; cases h
  | ok ph =>
    rw [hx] at h
    rw [List.all_eq_true]
    intro impl hmem
    obtain ⟨i, hi, hty⟩ := arityLoop_ok_mem trait_impl ph tes _ impls h impl hmem
    simp only [arityIndices, List.mem_filter, List.mem_range,
      decide_eq_true_eq] at hi
    rw [ItemImpl.tupleArityNeOne, hty]
    simp only [List.length_take, decide_eq_true_eq]
    omega

/-- C9 witness: a successful concrete run with three tuple elements,
yielding implementations of arities 0 and 2, all different from one. -/
theorem c9_witness :
    semi_automatic_impl exampleImpl (tuple_elements_for 3) = Except.ok c9okList
  ∧ c9okList.all ItemImpl.tupleArityNeOne = true :=
  ⟨rfl, c9_arity_one_skipped exampleImpl (tuple_elements_for 3) c9okList rfl⟩

/-- C10: a macro invocation whose path is not exactly the single plain
identifier for_tuples is never treated as a repetition marker: the try
conversion returns no marker and no error, and the rewriter leaves the
invocation unchanged with no diagnostic at item position, at statement
position with and without a trailing semicolon, and at type position; its
token body is never parsed, so even an unparseable body produces no
diagnostic. -/
theorem c10_other_macros_untouched (m : MacroCall)
    (h : m.path.isIdent "for_tuples" = false)
    (c : ToTupleImplementation) (has_self : Bool) :
    ForTuplesForm.tryFrom m = Except.ok none
  ∧ c.foldImplItem (ImplItem.macItem m) = (ImplItem.macItem m, [])
  ∧ c.foldStmt has_self (Stmt.semi (Expr.mac m)) = (Stmt.semi (Expr.mac m), [])
  ∧ c.foldStmt has_self (Stmt.expr (Expr.mac m)) = (Stmt.expr (Expr.mac m), [])
  ∧ c.foldType (Ty.mac m) = (Ty.mac m, []) := by
  have ht : ForTuplesForm.tryFrom m = Except.ok none := by
    simp [ForTuplesForm.tryFrom, h]
  refine ⟨ht, ?_, ?_, ?_, ?_⟩ <;>
    simp [ToTupleImplementation.foldImplItem, ToTupleImplementation.foldStmt,
      ToTupleImplementation.foldType, ht]

/-- C10 witness: the statement evaluated on a concrete vec macro
invocation with an unparseable body. -/
theorem c10_witness :
    ForTuplesForm.tryFrom otherMacroCall = Except.ok none
  ∧ (ToTupleImplementation.mk "Tuple" ["TupleElement0"]).foldImplItem
        (ImplItem.macItem otherMacroCall) = (ImplItem.macItem otherMacroCall, [])
  ∧ (ToTupleImplementation.mk "Tuple" ["TupleElement0"]).foldStmt true
        (Stmt.semi (Expr.mac otherMacroCall))
        = (Stmt.semi (Expr.mac otherMacroCall), [])
  ∧ (ToTupleImplementation.mk "Tuple" ["TupleElement0"]).foldStmt true
        (Stmt.expr (Expr.mac otherMacroCall))
        = (Stmt.expr (Expr.mac otherMacroCall), [])
  ∧ (ToTupleImplementation.mk "Tuple" ["TupleElement0"]).foldType
        (Ty.mac otherMacroCall) = (Ty.mac otherMacroCall, []) :=
  c10_other_macros_untouched otherMacroCall rfl
    (ToTupleImplementation.mk "Tuple" ["TupleElement0"]) true

end ImplTraitForTuples
